import Mathlib

/-!
Shallow embedding of the CAL Review Engine
(`src/aumos_legal_overlay/adapters/tar_engine.py`, class
`ContinuousActiveLearner`) and proofs of the spec's claims about it.

Modelling conventions:
* Python floats are modelled as rationals (`ℚ`); all the spec's numeric
  comparisons here are exact in `ℚ`.
* Python exceptions become `Except TarError`; the spec's error taxonomy names
  (`InsufficientSeedError` for the `ValueError` raised by `train_on_reviews`,
  `ModelNotTrainedError` for the `RuntimeError` raised by `rank_unreviewed`)
  label the two raise sites of the source.
* The sklearn vectorizer/classifier pair is external to the repository's
  algorithmic content (spec treats it abstractly as "a fittable linear model
  with probability output"); a fitted model's predictions are a score oracle
  `score : String → ℚ` passed to ranking, and the engine state tracks the
  `_fitted` flag the source branches on.
* `random.sample(pool, k)` draws `k` elements without replacement; it is
  modelled by a sampler parameter together with the predicate `IsSampler`
  stating exactly that (length `k`, and the sample is a permutation of a
  sublist of the pool).
* Python's `sorted` is a stable sort; with `key=lambda x: x[1], reverse=True`
  it is stable sorting by the comparator "score of the left is ≥ score of the
  right", modelled by `List.mergeSort` with `scoreDescLE`.
-/

namespace AumosTar

/-- Result record of `elusion_test` (the source returns a dict with exactly
these four keys). -/
structure ElusionResult where
  sample_size : Nat
  relevant_found : Nat
  elusion_rate : ℚ
  passes_threshold : Bool
deriving DecidableEq

/-- Error taxonomy: `InsufficientSeedError` is the `ValueError` raised by
`train_on_reviews` when fewer than `min_seed_size` documents are given;
`ModelNotTrainedError` is the `RuntimeError` raised by `rank_unreviewed`
before a successful fit. -/
inductive TarError where
  | InsufficientSeedError
  | ModelNotTrainedError
deriving DecidableEq

/-- State of a `ContinuousActiveLearner` instance: the constructor arguments
and the `_fitted` flag (`__init__` sets `_fitted = False`; defaults
`min_seed_size=25`, `batch_size=100`, `target_recall=0.85`). -/
structure ContinuousActiveLearner where
  min_seed_size : Nat := 25
  batch_size : Nat := 100
  target_recall : ℚ := 85/100
  fitted : Bool := false
deriving DecidableEq

/-- `train_on_reviews`: raises (`ValueError` ≙ `InsufficientSeedError`) when
`len(reviewed_texts) < min_seed_size`; otherwise fits the model and sets
`_fitted = True`. The sklearn fit itself and the returned training accuracy
are external to the embedded state. -/
def train_on_reviews (cal : ContinuousActiveLearner)
    (reviewed_texts : List String) (labels : List Nat) :
    Except TarError ContinuousActiveLearner :=
  if reviewed_texts.length < cal.min_seed_size then
    .error .InsufficientSeedError
  else
    let _ := labels
    .ok { cal with fitted := true }

/-- Comparator of the ranking sort: `sorted(..., key=lambda x: x[1],
reverse=True)` places `a` before `b` whenever `a`'s score is ≥ `b`'s. -/
def scoreDescLE (a b : String × ℚ) : Bool :=
  decide (b.2 ≤ a.2)

/-- `rank_unreviewed`: raises (`RuntimeError` ≙ `ModelNotTrainedError`) when
the model is not fitted; otherwise scores the texts, stably sorts
`zip(document_ids, scores)` by descending score, and returns the first
`batch_size` entries. -/
def rank_unreviewed (cal : ContinuousActiveLearner) (score : String → ℚ)
    (unreviewed_texts : List String) (document_ids : List String) :
    Except TarError (List (String × ℚ)) :=
  if !cal.fitted then
    .error .ModelNotTrainedError
  else
    let scores := unreviewed_texts.map score
    let ranked := (document_ids.zip scores).mergeSort scoreDescLE
    .ok (ranked.take cal.batch_size)

/-- `estimate_recall`: `0.0` when `reviewed_total == 0`, otherwise
`min(reviewed_relevant / max((reviewed_relevant / reviewed_total) * corpus_size, 1), 1.0)`. -/
def estimate_recall (reviewed_relevant reviewed_total corpus_size : Nat) : ℚ :=
  if reviewed_total = 0 then
    0
  else
    let estimated_prevalence : ℚ := (reviewed_relevant : ℚ) / (reviewed_total : ℚ)
    let estimated_total_relevant : ℚ := estimated_prevalence * (corpus_size : ℚ)
    min ((reviewed_relevant : ℚ) / max estimated_total_relevant 1) 1

/-- A sampler behaves like `random.sample(pool, k)` (for `k ≤ len(pool)`):
it returns exactly `k` elements drawn from distinct positions of the pool
(without replacement), i.e. a permutation of a sublist of the pool. -/
def IsSampler (sampler : List String → Nat → List String) : Prop :=
  ∀ (pool : List String) (k : Nat), k ≤ pool.length →
    (sampler pool k).length = k ∧ (sampler pool k).Subperm pool

/-- A concrete sampler (used to instantiate theorems): take the first `k`
elements of the pool. -/
def takeSampler (pool : List String) (k : Nat) : List String :=
  pool.take k

theorem takeSampler_isSampler : IsSampler takeSampler := by
  intro pool k hk
  exact ⟨List.length_take_of_le hk, (List.take_sublist k pool).subperm⟩

/-- `elusion_test`: on an empty candidate list returns the trivially-passing
record without consulting the callback; otherwise samples
`min(sample_size, len(pool))` ids, counts those the callback marks relevant,
computes `elusion_rate = relevant_found / len(sample)` (`0.0` on an empty
sample) and `passes = elusion_rate < 0.01`. -/
def elusion_test (sampler : List String → Nat → List String)
    (predicted_non_relevant_ids : List String) (sample_size : Nat)
    (review_callback : String → Bool) : ElusionResult :=
  if predicted_non_relevant_ids.isEmpty then
    { sample_size := 0, relevant_found := 0, elusion_rate := 0,
      passes_threshold := true }
  else
    let sample := sampler predicted_non_relevant_ids
      (min sample_size predicted_non_relevant_ids.length)
    let relevant_found := sample.countP review_callback
    let elusion_rate : ℚ :=
      if sample.isEmpty then 0 else (relevant_found : ℚ) / (sample.length : ℚ)
    { sample_size := sample.length,
      relevant_found := relevant_found,
      elusion_rate := elusion_rate,
      passes_threshold := decide (elusion_rate < 1/100) }

/-- C7: `elusion_test` called with an empty candidate list returns exactly
`{sample_size: 0, relevant_found: 0, elusion_rate: 0.0, passes_threshold: true}`,
and the result is the same constant for every judgment callback (the callback
is never invoked on the empty-pool path). -/
theorem C7_elusion_test_empty_pool (sampler : List String → Nat → List String)
    (sample_size : Nat) (review_callback : String → Bool) :
    elusion_test sampler [] sample_size review_callback =
      { sample_size := 0, relevant_found := 0, elusion_rate := 0,
        passes_threshold := true } :=
  rfl

/-- C2: `estimate_recall` returns `0.0` when `reviewed_total == 0`, and
otherwise exactly
`min(reviewed_relevant / max((reviewed_relevant / reviewed_total) * corpus_size, 1), 1.0)`. -/
theorem C2_estimate_recall_formula (r t c : Nat) :
    (t = 0 → estimate_recall r t c = 0) ∧
    (t ≠ 0 → estimate_recall r t c =
      min ((r : ℚ) / max (((r : ℚ) / (t : ℚ)) * (c : ℚ)) 1) 1) := by
  constructor
  · intro h
    simp [estimate_recall, h]
  · intro h
    simp [estimate_recall, h]

theorem C2_estimate_recall_formula_witness :
    estimate_recall 0 0 10 = 0 ∧
    estimate_recall 3 10 100 =
      min ((3 : ℚ) / max (((3 : ℚ) / (10 : ℚ)) * (100 : ℚ)) 1) 1 :=
  ⟨(C2_estimate_recall_formula 0 0 10).1 rfl,
   (C2_estimate_recall_formula 3 10 100).2 (by decide)⟩

/-- C4: with fewer reviewed documents than `min_seed_size` (default 25),
`train_on_reviews` raises `InsufficientSeedError`; on an engine that is still
unfitted, a subsequent ranking call still fails with `ModelNotTrainedError`
(the failed training attempt does not fit the model). -/
theorem C4_train_insufficient_seed (cal : ContinuousActiveLearner)
    (texts : List String) (labels : List Nat) (score : String → ℚ)
    (ts ids : List String)
    (hsize : texts.length < cal.min_seed_size) :
    ({} : ContinuousActiveLearner).min_seed_size = 25 ∧
    train_on_reviews cal texts labels = .error .InsufficientSeedError ∧
    (cal.fitted = false →
      rank_unreviewed cal score ts ids = .error .ModelNotTrainedError) := by
  refine ⟨rfl, ?_, ?_⟩
  · simp [train_on_reviews, hsize]
  · intro h
    simp [rank_unreviewed, h]

theorem C4_train_insufficient_seed_witness :
    ([] : List String).length < ({} : ContinuousActiveLearner).min_seed_size ∧
    train_on_reviews {} [] [] = .error .InsufficientSeedError ∧
    rank_unreviewed {} (fun _ => (0 : ℚ)) [] [] = .error .ModelNotTrainedError := by
  have h := C4_train_insufficient_seed {} [] [] (fun _ => (0 : ℚ)) [] []
    (by decide)
  exact ⟨by decide, h.2.1, h.2.2 rfl⟩

/-- C5: ranking before any successful training (a fresh instance starts with
`_fitted = False`) raises `ModelNotTrainedError`; after a successful
`train_on_reviews` (which sets `_fitted = True`), ranking never raises this
error. -/
theorem C5_rank_requires_training (cal cal' : ContinuousActiveLearner)
    (texts : List String) (labels : List Nat) (score : String → ℚ)
    (ts ids : List String)
    (htr : train_on_reviews cal texts labels = .ok cal') :
    ({} : ContinuousActiveLearner).fitted = false ∧
    (cal.fitted = false →
      rank_unreviewed cal score ts ids = .error .ModelNotTrainedError) ∧
    rank_unreviewed cal' score ts ids ≠ .error .ModelNotTrainedError := by
  have hfit : cal'.fitted = true := by
    simp only [train_on_reviews] at htr
    split at htr
    · exact absurd htr (by simp)
    · simp only [Except.ok.injEq] at htr
      subst htr
      rfl
  refine ⟨rfl, ?_, ?_⟩
  · intro h
    simp [rank_unreviewed, h]
  · simp [rank_unreviewed, hfit]

theorem C5_rank_requires_training_witness :
    rank_unreviewed {} (fun _ => (0 : ℚ)) [] [] = .error .ModelNotTrainedError ∧
    train_on_reviews {} (List.replicate 25 "x") [] = .ok { fitted := true } ∧
    rank_unreviewed { fitted := true } (fun _ => (0 : ℚ)) [] [] ≠
      .error .ModelNotTrainedError := by
  have htr : train_on_reviews {} (List.replicate 25 "x") [] =
      .ok { fitted := true } := by
    simp [train_on_reviews]
  have h := C5_rank_requires_training {} { fitted := true }
    (List.replicate 25 "x") [] (fun _ => (0 : ℚ)) [] [] htr
  exact ⟨h.2.1 rfl, htr, h.2.2⟩

/-- C6: a successful ranking call returns at most `batch_size` entries, and
every returned document identifier comes from the supplied pool of unjudged
document ids — hence no identifier outside that pool (in particular none with
an existing judgment) is ever returned. -/
theorem C6_batch_size_and_pool (cal : ContinuousActiveLearner)
    (score : String → ℚ) (ts ids : List String) (out : List (String × ℚ))
    (h : rank_unreviewed cal score ts ids = .ok out) :
    out.length ≤ cal.batch_size ∧
    (∀ p ∈ out, p.1 ∈ ids) ∧
    ∀ judged : String → Bool, (∀ i ∈ ids, judged i = false) →
      ∀ p ∈ out, judged p.1 = false := by
  simp only [rank_unreviewed] at h
  split at h
  · exact absurd h (by simp)
  · simp only [Except.ok.injEq] at h
    subst h
    have hmem : ∀ p ∈ (((ids.zip (ts.map score)).mergeSort scoreDescLE).take
        cal.batch_size), p.1 ∈ ids := by
      rintro ⟨a, b⟩ hp
      exact (List.of_mem_zip (List.mem_mergeSort.mp (List.mem_of_mem_take hp))).1
    exact ⟨List.length_take_le _ _, hmem,
      fun judged hj p hp => hj p.1 (hmem p hp)⟩

theorem C6_batch_size_and_pool_witness :
    [(("a" : String), (0 : ℚ)), ("b", 0)].length ≤
      ({ fitted := true } : ContinuousActiveLearner).batch_size ∧
    (("a" : String), (0 : ℚ)).1 ∈ ["a", "b"] ∧
    (fun s : String => s == "c") (("a" : String), (0 : ℚ)).1 = false := by
  have hrank : rank_unreviewed { fitted := true } (fun _ => (0 : ℚ))
      ["t1", "t2"] ["a", "b"] = .ok [("a", 0), ("b", 0)] := by
    have hsorted : ([(("a" : String), (0 : ℚ)), ("b", 0)]).Pairwise
        (fun a b => scoreDescLE a b = true) := by decide
    simp only [rank_unreviewed, Bool.not_true, Bool.false_eq_true, if_false,
      List.map_cons, List.map_nil, List.zip_cons_cons, List.zip_nil_right,
      List.mergeSort_of_sorted hsorted]
    rfl
  have h := C6_batch_size_and_pool { fitted := true } (fun _ => (0 : ℚ))
    ["t1", "t2"] ["a", "b"] [("a", 0), ("b", 0)] hrank
  exact ⟨h.1, h.2.1 ("a", 0) (by decide),
    h.2.2 (fun s => s == "c") (by decide) ("a", 0) (by decide)⟩

/-- Characterization of `elusion_test` on a non-empty candidate pool, used by
the claims about its sampling branch. -/
theorem elusion_test_nonempty (sampler : List String → Nat → List String)
    (ids : List String) (n : Nat) (cb : String → Bool)
    (hne : ids.isEmpty = false) :
    elusion_test sampler ids n cb =
      { sample_size := (sampler ids (min n ids.length)).length,
        relevant_found := (sampler ids (min n ids.length)).countP cb,
        elusion_rate := if (sampler ids (min n ids.length)).isEmpty then 0
          else ((sampler ids (min n ids.length)).countP cb : ℚ) /
            ((sampler ids (min n ids.length)).length : ℚ),
        passes_threshold :=
          decide ((if (sampler ids (min n ids.length)).isEmpty then (0 : ℚ)
            else ((sampler ids (min n ids.length)).countP cb : ℚ) /
              ((sampler ids (min n ids.length)).length : ℚ)) < 1/100) } := by
  simp only [elusion_test, hne, Bool.false_eq_true, if_false]

/-- C1: on a non-empty candidate pool with `sample_size` not exceeding the
pool size, `elusion_test` draws a sample of exactly `sample_size` ids without
replacement from the pool (a permutation of a sublist of it), counts the
sampled ids the callback marks relevant, reports
`elusion_rate = relevant_found / sample_size`, and reports
`passes_threshold = true` iff `elusion_rate < 0.01`. -/
theorem C1_elusion_test_behaviour (sampler : List String → Nat → List String)
    (hs : IsSampler sampler) (ids : List String) (n : Nat)
    (cb : String → Bool) (hne : ids ≠ []) (hn : n ≤ ids.length) :
    (sampler ids n).length = n ∧
    (sampler ids n).Subperm ids ∧
    (elusion_test sampler ids n cb).sample_size = n ∧
    (elusion_test sampler ids n cb).relevant_found = (sampler ids n).countP cb ∧
    (elusion_test sampler ids n cb).elusion_rate =
      ((sampler ids n).countP cb : ℚ) / (n : ℚ) ∧
    ((elusion_test sampler ids n cb).passes_threshold = true ↔
      (elusion_test sampler ids n cb).elusion_rate < 1/100) := by
  obtain ⟨hlen, hsub⟩ := hs ids n hn
  have hmin : min n ids.length = n := Nat.min_eq_left hn
  have hne' : ids.isEmpty = false := by
    simpa [List.isEmpty_iff] using hne
  have hres := elusion_test_nonempty sampler ids n cb hne'
  rw [hres]
  have hrate : (if (sampler ids (min n ids.length)).isEmpty then (0 : ℚ)
      else ((sampler ids (min n ids.length)).countP cb : ℚ) /
        ((sampler ids (min n ids.length)).length : ℚ)) =
      ((sampler ids n).countP cb : ℚ) / (n : ℚ) := by
    rw [hmin]
    by_cases hemp : (sampler ids n).isEmpty
    · have hnil : sampler ids n = [] := List.isEmpty_iff.mp hemp
      have hn0 : n = 0 := by
        rw [hnil] at hlen
        exact hlen.symm
      rw [if_pos hemp, hnil, hn0]
      simp
    · simp only [hemp, Bool.false_eq_true, if_false, hlen]
  refine ⟨hlen, hsub, by simpa [hmin] using hlen, by simp [hmin], ?_, ?_⟩
  · simpa using hrate
  · simp only [decide_eq_true_eq]

theorem C1_elusion_test_behaviour_witness :
    (elusion_test takeSampler ("a" :: "b" :: List.replicate 48 "c") 50
      (fun s => s == "a" || s == "b")).elusion_rate = 4/100 ∧
    (elusion_test takeSampler ("a" :: "b" :: List.replicate 48 "c") 50
      (fun s => s == "a" || s == "b")).passes_threshold = false := by
  have h := C1_elusion_test_behaviour takeSampler takeSampler_isSampler
    ("a" :: "b" :: List.replicate 48 "c") 50 (fun s => s == "a" || s == "b")
    (by decide) (by decide)
  have hcount : (takeSampler ("a" :: "b" :: List.replicate 48 "c") 50).countP
      (fun s => s == "a" || s == "b") = 2 := by decide
  have hrate : (elusion_test takeSampler ("a" :: "b" :: List.replicate 48 "c")
      50 (fun s => s == "a" || s == "b")).elusion_rate = 4/100 := by
    rw [h.2.2.2.2.1, hcount]
    norm_num
  refine ⟨hrate, ?_⟩
  have hnotlt : ¬ ((elusion_test takeSampler ("a" :: "b" :: List.replicate 48 "c")
      50 (fun s => s == "a" || s == "b")).elusion_rate < 1/100) := by
    rw [hrate]
    norm_num
  cases hp : (elusion_test takeSampler ("a" :: "b" :: List.replicate 48 "c")
      50 (fun s => s == "a" || s == "b")).passes_threshold
  · rfl
  · exact absurd (h.2.2.2.2.2.mp hp) hnotlt

/-- C10: on a non-empty candidate pool smaller than the requested
`sample_size`, `elusion_test` samples the entire pool (the sample is a
permutation of it), and both the reported `sample_size` and the denominator
of `elusion_rate` are the actual number sampled,
`min(sample_size, pool size) = pool size`, not the requested `sample_size`. -/
theorem C10_elusion_test_small_pool (sampler : List String → Nat → List String)
    (hs : IsSampler sampler) (ids : List String) (n : Nat)
    (cb : String → Bool) (hne : ids ≠ []) (hlt : ids.length < n) :
    (sampler ids (min n ids.length)).Perm ids ∧
    (elusion_test sampler ids n cb).sample_size = ids.length ∧
    (elusion_test sampler ids n cb).sample_size = min n ids.length ∧
    (elusion_test sampler ids n cb).elusion_rate =
      ((elusion_test sampler ids n cb).relevant_found : ℚ) / (ids.length : ℚ) := by
  have hmin : min n ids.length = ids.length := Nat.min_eq_right (Nat.le_of_lt hlt)
  obtain ⟨hlen, hsub⟩ := hs ids ids.length (Nat.le_refl _)
  have hperm : (sampler ids ids.length).Perm ids :=
    hsub.perm_of_length_le (by rw [hlen])
  have hne' : ids.isEmpty = false := by
    simpa [List.isEmpty_iff] using hne
  have hpos : 0 < ids.length := List.length_pos.mpr hne
  have hemp : (sampler ids ids.length).isEmpty = false := by
    cases h : (sampler ids ids.length).isEmpty
    · rfl
    · exfalso
      rw [List.isEmpty_iff.mp h] at hlen
      simp only [List.length_nil] at hlen
      omega
  have hres := elusion_test_nonempty sampler ids n cb hne'
  rw [hres]
  rw [hmin] at *
  refine ⟨hperm, hlen, by rw [hlen], ?_⟩
  simp only [hemp, Bool.false_eq_true, if_false, hlen]

theorem C10_elusion_test_small_pool_witness :
    (takeSampler ["a", "b"] (min 5 (["a", "b"] : List String).length)).Perm
      ["a", "b"] ∧
    (elusion_test takeSampler ["a", "b"] 5 (fun _ => true)).sample_size = 2 ∧
    (elusion_test takeSampler ["a", "b"] 5 (fun _ => true)).elusion_rate =
      ((elusion_test takeSampler ["a", "b"] 5 (fun _ => true)).relevant_found : ℚ)
        / ((2 : Nat) : ℚ) := by
  have h := C10_elusion_test_small_pool takeSampler takeSampler_isSampler
    ["a", "b"] 5 (fun _ => true) (by decide) (by decide)
  exact ⟨h.1, h.2.1, h.2.2.2⟩

theorem scoreDescLE_trans (a b c : String × ℚ)
    (hab : scoreDescLE a b) (hbc : scoreDescLE b c) : scoreDescLE a c := by
  simp only [scoreDescLE, decide_eq_true_eq] at *
  exact le_trans hbc hab

theorem scoreDescLE_total (a b : String × ℚ) :
    scoreDescLE a b || scoreDescLE b a := by
  simp only [scoreDescLE]
  rcases le_total a.2 b.2 with h | h <;> simp [h]

/-- Stability of the ranking sort: the entries carrying any fixed score appear
in the sorted output exactly as they appear in the input. -/
theorem mergeSort_filter_score (l : List (String × ℚ)) (s : ℚ) :
    (l.mergeSort scoreDescLE).filter (fun x => decide (x.2 = s)) =
      l.filter (fun x => decide (x.2 = s)) := by
  have hpair : (l.filter (fun x => decide (x.2 = s))).Pairwise
      (fun a b => scoreDescLE a b = true) := by
    apply List.pairwise_of_forall_mem_list
    intro a ha b hb
    have ha2 : a.2 = s := by
      simpa using (List.mem_filter.mp ha).2
    have hb2 : b.2 = s := by
      simpa using (List.mem_filter.mp hb).2
    simp [scoreDescLE, ha2, hb2]
  have hsubl : List.Sublist (l.filter (fun x => decide (x.2 = s)))
      (l.mergeSort scoreDescLE) :=
    List.sublist_mergeSort scoreDescLE_trans scoreDescLE_total hpair
      (List.filter_sublist l)
  have hsubf : List.Sublist (l.filter (fun x => decide (x.2 = s)))
      ((l.mergeSort scoreDescLE).filter (fun x => decide (x.2 = s))) := by
    have := hsubl.filter (fun x => decide (x.2 = s))
    simpa [List.filter_filter] using this
  have hlen : ((l.mergeSort scoreDescLE).filter
      (fun x => decide (x.2 = s))).length =
      (l.filter (fun x => decide (x.2 = s))).length := by
    rw [← List.countP_eq_length_filter, ← List.countP_eq_length_filter]
    exact (List.mergeSort_perm l scoreDescLE).countP_eq _
  exact (hsubf.eq_of_length hlen.symm).symm

/-- C3: a successful ranking call returns a batch sorted by predicted score in
descending order, and any two entries with equal scores appear in the batch in
the same relative order as in the zipped input sequence (stable sort). -/
theorem C3_rank_sorted_stable (cal : ContinuousActiveLearner)
    (score : String → ℚ) (ts ids : List String) (out : List (String × ℚ))
    (h : rank_unreviewed cal score ts ids = .ok out) :
    out.Pairwise (fun a b => b.2 ≤ a.2) ∧
    ∀ a b : String × ℚ, a.2 = b.2 → List.Sublist [a, b] out →
      List.Sublist [a, b] (ids.zip (ts.map score)) := by
  simp only [rank_unreviewed] at h
  split at h
  · exact absurd h (by simp)
  · simp only [Except.ok.injEq] at h
    subst h
    constructor
    · have hsorted := List.sorted_mergeSort scoreDescLE_trans scoreDescLE_total
        (ids.zip (ts.map score))
      have htake := List.Pairwise.sublist
        (List.take_sublist cal.batch_size
          ((ids.zip (ts.map score)).mergeSort scoreDescLE)) hsorted
      exact htake.imp (fun hab => by
        simpa [scoreDescLE, decide_eq_true_eq] using hab)
    · intro a b heq hsub
      have hpa : (fun x : String × ℚ => decide (x.2 = a.2)) a = true := by simp
      have hpb : (fun x : String × ℚ => decide (x.2 = a.2)) b = true := by
        simp [heq.symm]
      have h1 : List.Sublist [a, b] ((((ids.zip (ts.map score)).mergeSort
          scoreDescLE).take cal.batch_size).filter
          (fun x => decide (x.2 = a.2))) := by
        have := hsub.filter (fun x => decide (x.2 = a.2))
        simpa [hpa, hpb] using this
      have h2 : List.Sublist ((((ids.zip (ts.map score)).mergeSort scoreDescLE).take
          cal.batch_size).filter (fun x => decide (x.2 = a.2)))
          (((ids.zip (ts.map score)).mergeSort scoreDescLE).filter
          (fun x => decide (x.2 = a.2))) :=
        (List.take_sublist _ _).filter _
      have h3 := mergeSort_filter_score (ids.zip (ts.map score)) a.2
      have h4 := h1.trans h2
      rw [h3] at h4
      exact h4.trans (List.filter_sublist _)

theorem C3_rank_sorted_stable_witness :
    ([(("a" : String), (1 : ℚ)), ("b", 1/2), ("c", 1/2)]).Pairwise
      (fun a b : String × ℚ => b.2 ≤ a.2) ∧
    List.Sublist [(("b" : String), (1/2 : ℚ)), ("c", 1/2)]
      (["a", "b", "c"].zip ((["t1", "t2", "t3"]).map
        (fun s => if s = "t1" then (1 : ℚ) else 1/2))) := by
  have hsorted : ([(("a" : String), (1 : ℚ)), ("b", 1/2), ("c", 1/2)]).Pairwise
      (fun a b => scoreDescLE a b = true) := by
    simp only [List.pairwise_cons, List.mem_cons, scoreDescLE,
      decide_eq_true_eq]
    norm_num
  have hmap : ((["t1", "t2", "t3"] : List String).map
      (fun s => if s = "t1" then (1 : ℚ) else 1/2)) = [1, 1/2, 1/2] := by
    simp
  have hrank : rank_unreviewed { fitted := true }
      (fun s => if s = "t1" then (1 : ℚ) else 1/2) ["t1", "t2", "t3"]
      ["a", "b", "c"] = .ok [("a", 1), ("b", 1/2), ("c", 1/2)] := by
    simp only [rank_unreviewed, Bool.not_true, Bool.false_eq_true, if_false,
      hmap, List.zip_cons_cons, List.zip_nil_right,
      List.mergeSort_of_sorted hsorted]
    rw [List.take_of_length_le (by decide)]
  have h := C3_rank_sorted_stable { fitted := true }
    (fun s => if s = "t1" then (1 : ℚ) else 1/2) ["t1", "t2", "t3"]
    ["a", "b", "c"] [("a", 1), ("b", 1/2), ("c", 1/2)] hrank
  refine ⟨h.1, ?_⟩
  exact h.2 ("b", 1/2) ("c", 1/2) rfl
    ((List.nil_sublist _).cons₂ _ |>.cons₂ _ |>.cons _)

theorem estimate_recall_of_small (r t c : Nat) (ht : t ≠ 0)
    (h : ((r : ℚ) / (t : ℚ)) * (c : ℚ) ≤ 1) :
    estimate_recall r t c = min ((r : ℚ)) 1 := by
  simp only [estimate_recall, if_neg ht]
  rw [max_eq_right h, div_one]

theorem estimate_recall_of_large (r t c : Nat) (ht : t ≠ 0)
    (h : 1 ≤ ((r : ℚ) / (t : ℚ)) * (c : ℚ)) :
    estimate_recall r t c = min ((t : ℚ) / (c : ℚ)) 1 := by
  have ht' : ((t : ℚ)) ≠ 0 := Nat.cast_ne_zero.mpr ht
  have hr : ((r : ℚ)) ≠ 0 := by
    intro h0
    rw [h0] at h
    simp at h
    exact absurd h (by norm_num)
  have hc : ((c : ℚ)) ≠ 0 := by
    intro h0
    rw [h0] at h
    simp at h
    exact absurd h (by norm_num)
  simp only [estimate_recall, if_neg ht]
  rw [max_eq_left h]
  congr 1
  field_simp
  ring

theorem estimate_recall_succ_le (r t c : Nat) :
    estimate_recall r t c ≤ estimate_recall (r + 1) t c := by
  by_cases ht : t = 0
  · subst ht
    simp [estimate_recall]
  · have ht' : (0 : ℚ) < (t : ℚ) := by
      exact_mod_cast Nat.pos_of_ne_zero ht
    have hcast : ((r : ℚ)) ≤ (((r + 1 : ℕ)) : ℚ) := by
      exact_mod_cast Nat.le_succ r
    have hmono : ((r : ℚ) / (t : ℚ)) * (c : ℚ) ≤
        (((r + 1 : ℕ) : ℚ) / (t : ℚ)) * (c : ℚ) :=
      mul_le_mul_of_nonneg_right ((div_le_div_iff_of_pos_right ht').mpr hcast)
        (Nat.cast_nonneg c)
    rcases le_or_lt ((((r + 1 : ℕ)) : ℚ) / (t : ℚ) * (c : ℚ)) 1 with h1 | h1
    · rw [estimate_recall_of_small r t c ht (le_trans hmono h1),
        estimate_recall_of_small (r + 1) t c ht h1]
      exact min_le_min hcast le_rfl
    · rcases le_or_lt (((r : ℚ)) / (t : ℚ) * (c : ℚ)) 1 with h2 | h2
      · rw [estimate_recall_of_small r t c ht h2,
          estimate_recall_of_large (r + 1) t c ht (le_of_lt h1)]
        by_cases hr0 : r = 0
        · subst hr0
          simp only [Nat.cast_zero]
          rw [min_eq_left (by norm_num : (0 : ℚ) ≤ 1)]
          exact le_min (div_nonneg (Nat.cast_nonneg t) (Nat.cast_nonneg c))
            (by norm_num)
        · have hr1 : (1 : ℚ) ≤ (r : ℚ) := by
            exact_mod_cast Nat.one_le_iff_ne_zero.mpr hr0
          have hc0 : (0 : ℚ) < (c : ℚ) := by
            rcases Nat.eq_zero_or_pos c with hc | hc
            · exfalso
              subst hc
              simp at h1
              exact absurd h1 (by norm_num)
            · exact_mod_cast hc
          have h3 : ((r : ℚ)) * (c : ℚ) ≤ (t : ℚ) := by
            rw [div_mul_eq_mul_div, div_le_one ht'] at h2
            exact h2
          have hct : ((c : ℚ)) ≤ (t : ℚ) :=
            calc (c : ℚ) = 1 * (c : ℚ) := (one_mul _).symm
              _ ≤ (r : ℚ) * (c : ℚ) :=
                mul_le_mul_of_nonneg_right hr1 (le_of_lt hc0)
              _ ≤ (t : ℚ) := h3
          have htc1 : (1 : ℚ) ≤ (t : ℚ) / (c : ℚ) := (one_le_div hc0).mpr hct
          rw [min_eq_right hr1, min_eq_right htc1]
      · rw [estimate_recall_of_large r t c ht (le_of_lt h2),
          estimate_recall_of_large (r + 1) t c ht (le_of_lt h1)]

/-- C8: with `reviewed_total` and `corpus_size` fixed, `estimate_recall` is
monotonically non-decreasing in `reviewed_relevant`, over non-negative
integers not exceeding `reviewed_total`. -/
theorem C8_estimate_recall_monotone (r r' t c : Nat) (hrr : r ≤ r')
    (hr't : r' ≤ t) :
    estimate_recall r t c ≤ estimate_recall r' t c := by
  induction hrr with
  | refl => exact le_rfl
  | step _ ih =>
    exact le_trans (ih (by omega)) (estimate_recall_succ_le _ t c)

theorem C8_estimate_recall_monotone_witness :
    1 ≤ 2 ∧ 2 ≤ 5 ∧ estimate_recall 1 5 10 ≤ estimate_recall 2 5 10 :=
  ⟨by decide, by decide,
    C8_estimate_recall_monotone 1 2 5 10 (by decide) (by decide)⟩

/-- C9: whenever `reviewed_relevant ≥ 1` and `1 ≤ reviewed_total ≤ corpus_size`,
`estimate_recall` returns exactly `reviewed_total / corpus_size`, independently
of `reviewed_relevant` — the proportional estimator degenerates to the fraction
of the corpus reviewed. -/
theorem C9_estimate_recall_degenerate (r t c : Nat) (hr : 1 ≤ r) (ht : 1 ≤ t)
    (htc : t ≤ c) :
    estimate_recall r t c = (t : ℚ) / (c : ℚ) := by
  have ht0 : t ≠ 0 := by omega
  have htq : (0 : ℚ) < (t : ℚ) := by
    exact_mod_cast Nat.pos_of_ne_zero ht0
  have hcq : (0 : ℚ) < (c : ℚ) := by
    have hc : 0 < c := by omega
    exact_mod_cast hc
  have h1 : (1 : ℚ) ≤ ((r : ℚ) / (t : ℚ)) * (c : ℚ) := by
    rw [div_mul_eq_mul_div, le_div_iff₀ htq, one_mul]
    have hr1 : (1 : ℚ) ≤ (r : ℚ) := by exact_mod_cast hr
    have htcq : ((t : ℚ)) ≤ (c : ℚ) := by exact_mod_cast htc
    calc (t : ℚ) ≤ (c : ℚ) := htcq
      _ = 1 * (c : ℚ) := (one_mul _).symm
      _ ≤ (r : ℚ) * (c : ℚ) :=
        mul_le_mul_of_nonneg_right hr1 (le_of_lt hcq)
  rw [estimate_recall_of_large r t c ht0 h1]
  exact min_eq_left ((div_le_one hcq).mpr (by exact_mod_cast htc))

theorem C9_estimate_recall_degenerate_witness :
    estimate_recall 3 10 20 = ((10 : Nat) : ℚ) / ((20 : Nat) : ℚ) :=
  C9_estimate_recall_degenerate 3 10 20 (by decide) (by decide) (by decide)

end AumosTar
